import Mathlib

/-!
Shallow embedding of the sourcing-agent pipeline (Go repository
luillyfe/sourcing-agent), covering the data model of pkg/agent/types.go and
the pkg/github types, the deterministic repository-relevance heuristic
(analyzeRepositoryRelevance), the search cascade and enrichment loop
(findAndEnrichCandidates), the ranking step (rankAndPresent), the degraded
ranking path (createFallbackResult) and the pipeline driver (RunStage2).

Modelling conventions:
- Go float64 is modelled as the rational numbers; all the score arithmetic in
  the source uses small decimal constants and the claims are stated in exact
  arithmetic.
- Fallible external calls (the profile-search backend, the inference backend)
  are modelled by explicit response environments of type Except: the Go
  functions involved return either a nil result with a non-nil error or a
  non-nil result with a nil error, never both or neither.
- Go sort.Slice guarantees only that the slice ends up sorted with respect to
  the comparator; it is documented as NOT stable.  It is therefore modelled by
  an arbitrary function argument together with the predicate sortsByScoreDesc
  stating exactly the sort.Slice contract (output is a permutation of the
  input, pairwise sorted by the comparator).
-/

namespace SourcingAgent

/-- MatchBreakdown (pkg/agent/types.go): the four model-supplied component
scores.  Defaults are the Go zero values. -/
structure MatchBreakdown where
  requiredSkillsScore : ℚ := 0
  repositoryRelevanceScore : ℚ := 0
  experienceScore : ℚ := 0
  profileQualityScore : ℚ := 0
deriving DecidableEq, Repr

/-- RelevantProject (pkg/agent/types.go). -/
structure RelevantProject where
  name : String := ""
  url : String := ""
  whyRelevant : String := ""
deriving DecidableEq, Repr

/-- RankedCandidate (pkg/agent/types.go).  Defaults are the Go zero values. -/
structure RankedCandidate where
  rank : Int := 0
  username : String := ""
  name : String := ""
  location : String := ""
  gitHubURL : String := ""
  finalMatchScore : ℚ := 0
  matchBreakdown : MatchBreakdown := {}
  keyQualifications : List String := []
  topRelevantProjects : List RelevantProject := []
  matchReasoning : String := ""
  potentialConcerns : String := ""
deriving DecidableEq, Repr

/-- ResultSummary (pkg/agent/types.go). -/
structure ResultSummary where
  totalCandidatesFound : Int := 0
  candidatesPresented : Int := 0
  averageMatchScore : ℚ := 0
  searchQuality : String := ""
deriving DecidableEq, Repr

/-- FinalResult (pkg/agent/types.go). -/
structure FinalResult where
  topCandidates : List RankedCandidate := []
  summary : ResultSummary := {}
deriving DecidableEq, Repr

/-- RelevantRepository (pkg/agent/types.go). -/
structure RelevantRepository where
  name : String := ""
  description : String := ""
  language : String := ""
  stars : Int := 0
  topics : List String := []
  relevanceScore : ℚ := 0
  relevanceReason : String := ""
deriving DecidableEq, Repr

/-- ExperienceIndicators (pkg/agent/types.go). -/
structure ExperienceIndicators where
  accountAgeYears : ℚ := 0
  totalStars : Int := 0
  hasPopularProjects : Bool := false
deriving DecidableEq, Repr

/-- EnrichedCandidate (pkg/agent/types.go). -/
structure EnrichedCandidate where
  username : String := ""
  name : String := ""
  location : String := ""
  bio : String := ""
  publicRepos : Int := 0
  followers : Int := 0
  gitHubURL : String := ""
  relevantRepositories : List RelevantRepository := []
  skillsFound : List String := []
  experienceIndicators : ExperienceIndicators := {}
  initialMatchScore : ℚ := 0
deriving DecidableEq, Repr

/-- SearchMetadata (pkg/agent/types.go).  The three Go int counters are
modelled as naturals: each is a count that starts at zero or one and is only
ever incremented. -/
structure SearchMetadata where
  searchesExecuted : Nat := 0
  totalProfilesFound : Nat := 0
  profilesAnalyzed : Nat := 0
deriving DecidableEq, Repr

/-- EnrichedCandidates (pkg/agent/types.go). -/
structure EnrichedCandidates where
  candidates : List EnrichedCandidate := []
  searchMetadata : SearchMetadata := {}
deriving DecidableEq, Repr

/-- Requirements (pkg/agent/types.go). -/
structure Requirements where
  requiredSkills : List String := []
  experienceLevel : String := ""
  locations : List String := []
  keywords : List String := []
  niceToHave : List String := []
  unclearRequest : Bool := false
  clarificationQuestion : String := ""
deriving DecidableEq, Repr

/-- SearchQuery (pkg/agent/types.go).  The optional follower threshold is a
string pointer in Go; it is never read by the embedded code paths. -/
structure SearchQuery where
  language : String := ""
  location : String := ""
  followers : Option String := none
  rationale : String := ""
deriving DecidableEq, Repr

/-- RepositorySearch (pkg/agent/types.go). -/
structure RepositorySearch where
  keywords : List String := []
  minStars : Option Int := none
  language : String := ""
deriving DecidableEq, Repr

/-- PostFilters (pkg/agent/types.go). -/
structure PostFilters where
  minRepos : Int := 0
  bioKeywords : List String := []
  recentActivityDays : Option Int := none
deriving DecidableEq, Repr

/-- SearchStrategy (pkg/agent/types.go). -/
structure SearchStrategy where
  primarySearch : SearchQuery := {}
  fallbackSearches : List SearchQuery := []
  repositorySearch : RepositorySearch := {}
  postFilters : PostFilters := {}
  strategyNotes : String := ""
deriving DecidableEq, Repr

/-- Repository (pkg/github, part_005).  Fields not read by the embedded code
(forks, URL, timestamps) are kept for shape fidelity. -/
structure Repository where
  name : String := ""
  description : String := ""
  language : String := ""
  stars : Int := 0
  forks : Int := 0
  topics : List String := []
  url : String := ""
deriving DecidableEq, Repr

/-- Candidate (pkg/github, part_005). -/
structure Candidate where
  username : String := ""
  name : String := ""
  location : String := ""
  bio : String := ""
  publicRepos : Int := 0
  followers : Int := 0
  gitHubURL : String := ""
  avatarURL : String := ""
deriving DecidableEq, Repr

/-- SearchResult (pkg/github, part_005).  The SearchCriteria echo map (a
map of the request parameters, never read back) is omitted. -/
structure SearchResult where
  candidates : List Candidate := []
  totalFound : Int := 0
deriving DecidableEq, Repr

/-- ToolInput (pkg/github, part_005): the request shape sent to
SearchDevelopers. -/
structure ToolInput where
  language : String := ""
  location : String := ""
  keywords : String := ""
  minRepos : Int := 0
  maxResults : Int := 0
deriving DecidableEq, Repr

/-- RelevanceAnalysis (pkg/agent/types.go). -/
structure RelevanceAnalysis where
  score : ℚ := 0
  reasons : List String := []
deriving DecidableEq, Repr

/-- Go strings.ToLower (ASCII-relevant part): lower-case every character. -/
def strToLower (s : String) : String := ⟨s.data.map Char.toLower⟩

/-- Go strings.EqualFold as used on language names: case-insensitive
equality. -/
def strEqualFold (a b : String) : Bool := strToLower a == strToLower b

/-- Go strings.Contains: substring containment. -/
def strContainsSub (s sub : String) : Bool := decide (sub.data <:+: s.data)

/-- One iteration of the required-skill loop of analyzeRepositoryRelevance
(part_006, lines 298-303): +0.3 when the skill case-insensitively equals the
repository language. -/
def skillStep (repo : Repository) (acc : ℚ × List String)
    (skill : String) : ℚ × List String :=
  if strEqualFold repo.language skill then
    (acc.1 + 0.3, acc.2 ++ ["Uses " ++ skill])
  else acc

/-- One iteration of the keyword loop of analyzeRepositoryRelevance
(part_006, lines 307-315): +0.2 when the lower-cased keyword occurs in the
lower-cased name-plus-description text. -/
def keywordStep (repoText : String) (acc : ℚ × List String)
    (keyword : String) : ℚ × List String :=
  if strContainsSub repoText (strToLower keyword) then
    (acc.1 + 0.2, acc.2 ++ ["Contains " ++ keyword])
  else acc

/-- One iteration of the inner keyword loop over a topic (part_006, lines
319-326): +0.15 when the lower-cased keyword occurs in the lower-cased
topic. -/
def topicKeywordStep (topic : String) (acc : ℚ × List String)
    (keyword : String) : ℚ × List String :=
  if strContainsSub (strToLower topic) (strToLower keyword) then
    (acc.1 + 0.15, acc.2 ++ ["Topic: " ++ topic])
  else acc

/-- The outer topic loop of analyzeRepositoryRelevance (part_006, lines
318-327). -/
def topicStep (keywords : List String) (acc : ℚ × List String)
    (topic : String) : ℚ × List String :=
  keywords.foldl (topicKeywordStep topic) acc

/-- analyzeRepositoryRelevance (part_006, lines 292-344): the deterministic
repository relevance heuristic.  Adds 0.3 per case-insensitively matching
required skill, 0.2 per keyword contained in the lower-cased name plus
description, 0.15 per (topic, keyword) substring match, 0.1 if stars exceed
50, then caps the score at 1.0.  Reason strings are accumulated alongside in
source order. -/
def analyzeRepositoryRelevance (repo : Repository)
    (requiredSkills keywords : List String) : RelevanceAnalysis :=
  let acc0 : ℚ × List String := (0, [])
  let acc1 := requiredSkills.foldl (skillStep repo) acc0
  let repoText := strToLower (repo.name ++ " " ++ repo.description)
  let acc2 := keywords.foldl (keywordStep repoText) acc1
  let acc3 := repo.topics.foldl (topicStep keywords) acc2
  let acc4 := if 50 < repo.stars then (acc3.1 + 0.1, acc3.2 ++ ["Popular project"])
    else acc3
  let score := if 1 < acc4.1 then 1 else acc4.1
  { score := score, reasons := acc4.2 }

/-- The comparator passed to sort.Slice in rankAndPresent and
createFallbackResult (part_007, lines 503 and 555) sorts by FinalMatchScore
descending; a list is a correct output when consecutive elements satisfy this
relation. -/
def scoreDescRel (a b : RankedCandidate) : Prop :=
  b.finalMatchScore ≤ a.finalMatchScore

instance : DecidableRel scoreDescRel := fun a b =>
  inferInstanceAs (Decidable (b.finalMatchScore ≤ a.finalMatchScore))

instance : IsTotal RankedCandidate scoreDescRel :=
  ⟨fun a b => le_total b.finalMatchScore a.finalMatchScore⟩

instance : IsTrans RankedCandidate scoreDescRel :=
  ⟨fun _ _ _ hab hbc => le_trans hbc hab⟩

/-- The contract of Go sort.Slice with the descending-score comparator: the
output is a permutation of the input and is pairwise sorted by descending
FinalMatchScore.  sort.Slice promises nothing further (in particular it is
documented as not stable), so the ranking code is parametrised by an arbitrary
function satisfying this predicate. -/
def sortsByScoreDesc (f : List RankedCandidate → List RankedCandidate) : Prop :=
  ∀ l, List.Perm (f l) l ∧ List.Pairwise scoreDescRel (f l)

/-- One concrete behaviour allowed by the sort.Slice contract: a stable
insertion sort by descending score. -/
def goSortModel (l : List RankedCandidate) : List RankedCandidate :=
  l.insertionSort scoreDescRel

/-- A second behaviour also allowed by the sort.Slice contract: sort by
descending score and break ties by descending parsed rank field.  Used to
exhibit that the contract does not force stability. -/
def tieRankRel (a b : RankedCandidate) : Prop :=
  b.finalMatchScore < a.finalMatchScore ∨
    (b.finalMatchScore = a.finalMatchScore ∧ b.rank ≤ a.rank)

instance : DecidableRel tieRankRel := fun _ _ =>
  inferInstanceAs (Decidable (_ ∨ _))

instance : IsTotal RankedCandidate tieRankRel := ⟨by
  intro a b
  rcases lt_trichotomy a.finalMatchScore b.finalMatchScore with h | h | h
  · exact Or.inr (Or.inl h)
  · rcases le_total a.rank b.rank with hr | hr
    · exact Or.inr (Or.inr ⟨h, hr⟩)
    · exact Or.inl (Or.inr ⟨h.symm, hr⟩)
  · exact Or.inl (Or.inl h)⟩

instance : IsTrans RankedCandidate tieRankRel := ⟨by
  intro a b c hab hbc
  rcases hab with h1 | ⟨h1, r1⟩ <;> rcases hbc with h2 | ⟨h2, r2⟩
  · exact Or.inl (lt_trans h2 h1)
  · exact Or.inl (lt_of_eq_of_lt h2 h1)
  · exact Or.inl (lt_of_lt_of_eq h2 h1)
  · exact Or.inr ⟨h2.trans h1, le_trans r2 r1⟩⟩

def badSortModel (l : List RankedCandidate) : List RankedCandidate :=
  l.insertionSort tieRankRel

/-- Dense 1-based ranks: the candidate at position k carries rank k+1. -/
def denseRanks (l : List RankedCandidate) : Prop :=
  ∀ (k : Nat) (h : k < l.length), (l.get ⟨k, h⟩).rank = (k : Int) + 1

/-- The fixed weighted combination applied in rankAndPresent (part_007, lines
493-496): 0.4 skills + 0.3 repositories + 0.2 experience + 0.1 quality. -/
def weightedScore (bd : MatchBreakdown) : ℚ :=
  bd.requiredSkillsScore * 0.4 + bd.repositoryRelevanceScore * 0.3 +
    bd.experienceScore * 0.2 + bd.profileQualityScore * 0.1

/-- The per-candidate rescoring loop of rankAndPresent (part_007, lines
489-500): overwrite FinalMatchScore with the recomputed weighted sum. -/
def recomputeScore (c : RankedCandidate) : RankedCandidate :=
  { c with finalMatchScore := weightedScore c.matchBreakdown }

/-- Overwrite the rank of a candidate. -/
def setRank (c : RankedCandidate) (k : Int) : RankedCandidate :=
  { c with rank := k }

/-- The rank-assignment loops (part_007, lines 508-510 and 560-562): the
candidate at position i receives rank i+1. -/
def assignRanks (l : List RankedCandidate) : List RankedCandidate :=
  l.enum.map fun p => setRank p.2 ((p.1 : Int) + 1)

/-- rankAndPresent (part_007, lines 399-518) after the inference call and
JSON extraction succeeded with parsed result `parsed`: recompute every
FinalMatchScore from the own MatchBreakdown of the candidate (accumulating the
total), sort by recomputed score descending via sort.Slice (modelled by
`sortFn`), assign dense 1-based ranks, and overwrite the summary field
AverageMatchScore with total/count when at least one candidate is present. -/
def rankAndPresentCore (sortFn : List RankedCandidate → List RankedCandidate)
    (parsed : FinalResult) : FinalResult :=
  let rescored := parsed.topCandidates.map recomputeScore
  let totalScore := (rescored.map fun c => c.finalMatchScore).sum
  let ranked := assignRanks (sortFn rescored)
  let summary :=
    if 0 < ranked.length then
      { parsed.summary with averageMatchScore := totalScore / (ranked.length : ℚ) }
    else parsed.summary
  { topCandidates := ranked, summary := summary }

/-- The per-candidate conversion inside createFallbackResult (part_007, lines
532-552): FinalMatchScore is InitialMatchScore scaled by 100, the reasoning is
a fixed string, projects come from the known relevant repositories, and every
other field (including MatchBreakdown) is left at its Go zero value. -/
def fallbackRankedCandidate (cand : EnrichedCandidate) : RankedCandidate :=
  { username := cand.username,
    name := cand.name,
    location := cand.location,
    gitHubURL := cand.gitHubURL,
    finalMatchScore := cand.initialMatchScore * 100,
    matchReasoning := "Ranking step unavailable; score is based on initial keyword match.",
    topRelevantProjects := cand.relevantRepositories.map fun repo =>
      { name := repo.name,
        url := cand.gitHubURL ++ "/" ++ repo.name,
        whyRelevant := repo.relevanceReason } }

/-- createFallbackResult (part_007, lines 521-578): convert at most the first
10 enriched candidates, sort by score descending via sort.Slice (modelled by
`sortFn`), assign dense 1-based ranks, and build the degraded-mode summary. -/
def createFallbackResult (sortFn : List RankedCandidate → List RankedCandidate)
    (candidates : EnrichedCandidates) : FinalResult :=
  let top := (candidates.candidates.take 10).map fallbackRankedCandidate
  let totalScore := (top.map fun c => c.finalMatchScore).sum
  let ranked := assignRanks (sortFn top)
  let avgScore : ℚ := if 0 < ranked.length then totalScore / (ranked.length : ℚ) else 0
  { topCandidates := ranked,
    summary := { totalCandidatesFound := (candidates.searchMetadata.totalProfilesFound : Int),
                 candidatesPresented := (ranked.length : Int),
                 averageMatchScore := avgScore,
                 searchQuality := "Fallback (Ranking Unavailable)" } }

/-- The profile-search backend as seen by findAndEnrichCandidates.
`searchResp n` is the response to the n-th SearchDevelopers call issued (the
primary query is call 0); `repoResp u` is the response to
GetDeveloperRepositories for username u (the source always asks for at most
10 repositories).  Both Go functions return either a non-nil value with a nil
error or a nil value with a non-nil error, so a response is an Except. -/
structure SearchEnv where
  searchResp : Nat → Except Unit SearchResult
  repoResp : String → Except Unit (List Repository)

/-- The ToolInput built for a query of the cascade (part_007, lines 280-288
and 300-308): language and location from the query, MinRepos from the
post-filters, MaxResults fixed at 15, and the repository-search keywords
joined by spaces whenever that list is non-empty. -/
def buildSearchInput (strategy : SearchStrategy) (q : SearchQuery) : ToolInput :=
  let base : ToolInput :=
    { language := q.language, location := q.location, keywords := "",
      minRepos := strategy.postFilters.minRepos, maxResults := 15 }
  if 0 < strategy.repositorySearch.keywords.length then
    { base with keywords := String.intercalate " " strategy.repositorySearch.keywords }
  else base

/-- The break condition of the cascade (part_007, line 311): the call
returned without error and with at least one candidate. -/
def searchSucceeded : Except Unit SearchResult → Bool
  | .ok r => !r.candidates.isEmpty
  | .error _ => false

/-- The fallback loop of findAndEnrichCandidates (part_007, lines 294-314).
`n` is both the number of searches already executed and the index of the next
call; `last` is the (result, err) pair carried from the previous attempt.
Returns (searchesExecuted, the inputs of the fallback queries actually
issued, the final carried response). -/
def fallbackCascade (env : Nat → Except Unit SearchResult)
    (strategy : SearchStrategy) :
    List SearchQuery → Nat → Except Unit SearchResult →
      Nat × List ToolInput × Except Unit SearchResult
  | [], n, last => (n, [], last)
  | q :: rest, n, _ =>
    let resp := env n
    if searchSucceeded resp then (n + 1, [buildSearchInput strategy q], resp)
    else
      let r := fallbackCascade env strategy rest (n + 1) resp
      (r.1, buildSearchInput strategy q :: r.2.1, r.2.2)

/-- The whole search phase of findAndEnrichCandidates (part_007, lines
277-325): execute the primary query; on error or zero candidates run the
fallback cascade.  Returns (searchesExecuted, all inputs issued in order, the
final (result, err) pair). -/
def searchPhase (env : Nat → Except Unit SearchResult)
    (strategy : SearchStrategy) : Nat × List ToolInput × Except Unit SearchResult :=
  let primaryInput := buildSearchInput strategy strategy.primarySearch
  let r0 := env 0
  if searchSucceeded r0 then (1, [primaryInput], r0)
  else
    let r := fallbackCascade env strategy strategy.fallbackSearches 1 r0
    (r.1, primaryInput :: r.2.1, r.2.2)

/-- The per-candidate enrichment of findAndEnrichCandidates (part_007, lines
341-379) once the repositories were fetched: keep repositories scoring
strictly above 0.3, set the initial match score to 0.5 plus 0.2 when at least
one relevant repository exists, copy profile facts, and fill the placeholder
fields exactly as the source does. -/
def enrichCandidate (strategy : SearchStrategy) (requirements : Requirements)
    (cand : Candidate) (repos : List Repository) : EnrichedCandidate :=
  let relevantRepos := repos.foldl (fun rs repo =>
    let analysis := analyzeRepositoryRelevance repo requirements.requiredSkills
      strategy.repositorySearch.keywords
    if 0.3 < analysis.score then
      rs ++ [{ name := repo.name, description := repo.description,
               language := repo.language, stars := repo.stars,
               topics := repo.topics, relevanceScore := analysis.score,
               relevanceReason := String.intercalate ", " analysis.reasons }]
    else rs) []
  let matchScore : ℚ := 0.5
  let matchScore := if 0 < relevantRepos.length then matchScore + 0.2 else matchScore
  { username := cand.username, name := cand.name, location := cand.location,
    bio := cand.bio, publicRepos := cand.publicRepos,
    followers := cand.followers, gitHubURL := cand.gitHubURL,
    relevantRepositories := relevantRepos,
    skillsFound := requirements.requiredSkills,
    experienceIndicators := { totalStars := 0 },
    initialMatchScore := matchScore }

/-- One iteration of the enrichment loop (part_007, lines 331-380): the
analysed-profiles counter increments at the top of the body; a failed
repository fetch skips the candidate. -/
def enrichStep (env : SearchEnv) (strategy : SearchStrategy)
    (requirements : Requirements) (acc : List EnrichedCandidate × Nat)
    (cand : Candidate) : List EnrichedCandidate × Nat :=
  let profilesAnalyzed := acc.2 + 1
  match env.repoResp cand.username with
  | .error _ => (acc.1, profilesAnalyzed)
  | .ok repos =>
    (acc.1 ++ [enrichCandidate strategy requirements cand repos], profilesAnalyzed)

/-- Modelled from the spec: EnrichedCandidates.Validate is not under src/
(only its tests and its caller are).  Per its tests and section 3 of the spec
it rejects exactly a nil candidate list ("empty list is valid; nil is not").
The lists of the embedding have no nil, and the caller always builds the list from
an empty (non-nil) slice, so the validation always succeeds. -/
def EnrichedCandidates.validate (_e : EnrichedCandidates) : Except Unit Unit :=
  .ok ()

/-- findAndEnrichCandidates (part_007, lines 186-396): run the search phase;
a final carried error is fatal; otherwise enrich each returned candidate
(skipping those whose repository fetch fails) and assemble the envelope with
its metadata, validating it before returning. -/
def findAndEnrichCandidates (env : SearchEnv) (strategy : SearchStrategy)
    (requirements : Requirements) : Except Unit EnrichedCandidates :=
  let sp := searchPhase env.searchResp strategy
  match sp.2.2 with
  | .error e => .error e
  | .ok result =>
    let step := result.candidates.foldl (enrichStep env strategy requirements) ([], 0)
    let finalEnriched : EnrichedCandidates :=
      { candidates := step.1,
        searchMetadata := { searchesExecuted := sp.1,
                            totalProfilesFound := result.candidates.length,
                            profilesAnalyzed := step.2 } }
    match finalEnriched.validate with
    | .error _ => .error ()
    | .ok _ => .ok finalEnriched

/-- The observable stages of RunStage2, recorded in order of execution so that
"no downstream stage executes" is a statement about the trace. -/
inductive StageTag where
  | requirementsStage
  | strategyStage
  | searchStage
  | rankingStage
deriving DecidableEq, Repr

/-- The external-world behaviour seen by one RunStage2 invocation.
`analyzeResp` abstracts analyzeRequirements (inference call, JSON extraction
and validation), `strategyResp` abstracts generateSearchStrategy likewise,
and `rankParseResp` abstracts the ranking inference call of rankAndPresent up
to and including JSON parsing — everything after that point in rankAndPresent
is deterministic and is modelled by rankAndPresentCore. -/
structure Stage2Env where
  analyzeResp : Except String Requirements
  strategyResp : Except String SearchStrategy
  searchEnv : SearchEnv
  rankParseResp : Except String FinalResult

/-- RunStage2 (pkg/agent/types.go, lines 300-340): the four-stage pipeline.
An unclear request aborts right after requirements analysis with the
clarification question in the error; a failure of the ranking step is
absorbed by createFallbackResult instead of being propagated.  The first
component records which stages issued external calls. -/
def RunStage2 (sortFn : List RankedCandidate → List RankedCandidate)
    (env : Stage2Env) : List StageTag × Except String FinalResult :=
  match env.analyzeResp with
  | .error e => ([.requirementsStage], .error ("requirements analysis failed: " ++ e))
  | .ok requirements =>
    if requirements.unclearRequest then
      ([.requirementsStage], .error ("request unclear: " ++ requirements.clarificationQuestion))
    else
      match env.strategyResp with
      | .error e =>
        ([.requirementsStage, .strategyStage], .error ("strategy generation failed: " ++ e))
      | .ok strategy =>
        match findAndEnrichCandidates env.searchEnv strategy requirements with
        | .error _ =>
          ([.requirementsStage, .strategyStage, .searchStage],
           .error "candidate search failed")
        | .ok enriched =>
          match env.rankParseResp with
          | .error _ =>
            ([.requirementsStage, .strategyStage, .searchStage, .rankingStage],
             .ok (createFallbackResult sortFn enriched))
          | .ok parsed =>
            ([.requirementsStage, .strategyStage, .searchStage, .rankingStage],
             .ok (rankAndPresentCore sortFn parsed))

/-- A clear requirement set with one required skill. -/
def sampleReqs : Requirements := { requiredSkills := ["Go"] }

/-- An unclear requirement set carrying a clarification question. -/
def unclearReqs : Requirements :=
  { unclearRequest := true,
    clarificationQuestion := "Which technologies and seniority are you hiring for?" }

/-- A strategy with a primary query and two progressively broader fallbacks,
mirroring the cascade scenario of the spec. -/
def sampleStrategy : SearchStrategy :=
  { primarySearch := { language := "go", location := "lima" },
    fallbackSearches :=
      [{ language := "go", location := "peru" }, { language := "go" }],
    repositorySearch := { keywords := ["backend"], language := "go" },
    postFilters := { minRepos := 1 } }

/-- A strategy with a primary query and a single fallback. -/
def oneFallbackStrategy : SearchStrategy :=
  { primarySearch := { language := "go" },
    fallbackSearches := [{ language := "go", location := "" }],
    repositorySearch := { keywords := ["backend"], language := "go" },
    postFilters := { minRepos := 1 } }

/-- A strategy with only the primary query. -/
def primaryOnlyStrategy : SearchStrategy :=
  { primarySearch := { language := "go" },
    repositorySearch := { keywords := ["backend"], language := "go" },
    postFilters := { minRepos := 1 } }

def sampleCandidate : Candidate :=
  { username := "success_user", publicRepos := 10, followers := 5,
    gitHubURL := "https://github.com/success_user" }

def emptySearchResult : SearchResult := { candidates := [], totalFound := 0 }

def oneUserSearchResult : SearchResult :=
  { candidates := [sampleCandidate], totalFound := 1 }

/-- Backend behaviour: every search returns the single candidate and
repository fetches return no repositories. -/
def oneUserSearchEnv : SearchEnv :=
  { searchResp := fun _ => .ok oneUserSearchResult,
    repoResp := fun _ => .ok [] }

/-- Backend behaviour: every search returns zero candidates without error. -/
def allEmptySearchEnv : SearchEnv :=
  { searchResp := fun _ => .ok emptySearchResult,
    repoResp := fun _ => .ok [] }

/-- Backend behaviour: the primary search returns zero candidates cleanly,
every later search fails hard. -/
def emptyThenErrorEnv : SearchEnv :=
  { searchResp := fun n => match n with
      | 0 => .ok emptySearchResult
      | _ => .error (),
    repoResp := fun _ => .ok [] }

/-- Backend behaviour for the spec cascade scenario: the primary and the
first fallback return zero candidates, the second fallback returns one. -/
def cascadeScenarioEnv : SearchEnv :=
  { searchResp := fun n => match n with
      | 0 => .ok emptySearchResult
      | 1 => .ok emptySearchResult
      | _ => .ok oneUserSearchResult,
    repoResp := fun _ => .ok [] }

/-- The enrichment envelope produced by oneUserSearchEnv with
primaryOnlyStrategy and sampleReqs. -/
def oneUserEnriched : EnrichedCandidates :=
  { candidates := [{ username := "success_user", publicRepos := 10,
                     followers := 5,
                     gitHubURL := "https://github.com/success_user",
                     skillsFound := ["Go"], initialMatchScore := 0.5 }],
    searchMetadata := { searchesExecuted := 1, totalProfilesFound := 1,
                        profilesAnalyzed := 1 } }

/-- A full pipeline environment in which everything succeeds up to the
ranking inference call, which fails. -/
def rankFailStage2Env : Stage2Env :=
  { analyzeResp := .ok sampleReqs,
    strategyResp := .ok primaryOnlyStrategy,
    searchEnv := oneUserSearchEnv,
    rankParseResp := .error "simulated ranking failure" }

/-- A pipeline environment whose requirements analysis flags the query
unclear. -/
def unclearStage2Env : Stage2Env :=
  { analyzeResp := .ok unclearReqs,
    strategyResp := .error "never reached",
    searchEnv := allEmptySearchEnv,
    rankParseResp := .error "never reached" }

/-- A breakdown whose weighted sum is exactly 50. -/
def bd50 : MatchBreakdown :=
  { requiredSkillsScore := 50, repositoryRelevanceScore := 50,
    experienceScore := 50, profileQualityScore := 50 }

/-- A parsed model output with two candidates whose recomputed scores tie and
whose model-supplied final scores and average are wrong. -/
def tieParsed : FinalResult :=
  { topCandidates :=
      [{ username := "alice", rank := 1, finalMatchScore := 999,
         matchBreakdown := bd50 },
       { username := "bob", rank := 2, finalMatchScore := 1,
         matchBreakdown := bd50 }],
    summary := { totalCandidatesFound := 2, candidatesPresented := 2,
                 averageMatchScore := 12, searchQuality := "High" } }

/-- The first tieParsed candidate after rescoring. -/
def aliceRescored : RankedCandidate :=
  { username := "alice", rank := 1, finalMatchScore := 50,
    matchBreakdown := bd50 }

/-- The second tieParsed candidate after rescoring. -/
def bobRescored : RankedCandidate :=
  { username := "bob", rank := 2, finalMatchScore := 50,
    matchBreakdown := bd50 }

/-- A parsed model output with no candidates but a fabricated average. -/
def emptyParsed : FinalResult :=
  { topCandidates := [],
    summary := { totalCandidatesFound := 7, candidatesPresented := 0,
                 averageMatchScore := 42, searchQuality := "High" } }

theorem assignRanks_length (l : List RankedCandidate) :
    (assignRanks l).length = l.length := by
  simp [assignRanks]

theorem assignRanks_getElem (l : List RankedCandidate) (k : Nat)
    (h : k < l.length) (h' : k < (assignRanks l).length) :
    (assignRanks l)[k] = setRank l[k] ((k : Int) + 1) := by
  simp [assignRanks]

theorem mem_assignRanks {c : RankedCandidate} {l : List RankedCandidate}
    (h : c ∈ assignRanks l) : ∃ c' ∈ l, ∃ k : Int, c = setRank c' k := by
  obtain ⟨p, hp, hpc⟩ := List.mem_map.mp h
  refine ⟨p.2, ?_, (p.1 : Int) + 1, hpc.symm⟩
  have : p.2 ∈ l.enum.map Prod.snd := List.mem_map_of_mem Prod.snd hp
  simpa [List.enum_map_snd] using this

theorem assignRanks_map {β : Type} (g : RankedCandidate → β)
    (hg : ∀ c k, g (setRank c k) = g c) (l : List RankedCandidate) :
    (assignRanks l).map g = l.map g := by
  have h1 : (assignRanks l).map g
      = l.enum.map fun p => g p.2 := by
    simp [assignRanks, Function.comp, hg]
  rw [h1]
  have h2 : (l.enum.map fun p => g p.2) = (l.enum.map Prod.snd).map g := by
    rw [List.map_map]
    rfl
  rw [h2, List.enum_map_snd]

theorem pairwise_assignRanks {m : List RankedCandidate}
    (h : List.Pairwise scoreDescRel m) :
    List.Pairwise scoreDescRel (assignRanks m) := by
  rw [assignRanks, List.pairwise_map]
  have h' : List.Pairwise (fun p q : Nat × RankedCandidate =>
      scoreDescRel p.2 q.2) m.enum := by
    rw [← List.pairwise_map (f := Prod.snd), List.enum_map_snd]
    exact h
  exact h'.imp fun hab => hab

theorem foldl_fst_le {α : Type} (f : ℚ × List String → α → ℚ × List String)
    (hf : ∀ acc a, acc.1 ≤ (f acc a).1) :
    ∀ (l : List α) (acc : ℚ × List String), acc.1 ≤ (l.foldl f acc).1
  | [], _ => le_refl _
  | a :: l, acc => le_trans (hf acc a) (foldl_fst_le f hf l (f acc a))

theorem fallbackCascade_success (env : Nat → Except Unit SearchResult)
    (strategy : SearchStrategy) :
    ∀ (fbs : List SearchQuery) (n k : Nat) (last : Except Unit SearchResult),
      k < fbs.length →
      (∀ j, n ≤ j → j < n + k → searchSucceeded (env j) = false) →
      searchSucceeded (env (n + k)) = true →
      fallbackCascade env strategy fbs n last =
        (n + k + 1, (fbs.take (k + 1)).map (buildSearchInput strategy), env (n + k))
  | [], n, k, last, hk, _, _ => by simp at hk
  | q :: rest, n, k, last, hk, hfail, hsucc => by
    match k with
    | 0 =>
      simp only [Nat.add_zero] at hsucc
      simp [fallbackCascade, hsucc]
    | k' + 1 =>
      have h0 : searchSucceeded (env n) = false :=
        hfail n (le_refl n) (by omega)
      have hrec := fallbackCascade_success env strategy rest (n + 1) k' (env n)
        (by simpa using hk)
        (fun j hj1 hj2 => hfail j (by omega) (by omega))
        (by have : n + 1 + k' = n + (k' + 1) := by omega
            rw [this]; exact hsucc)
      simp only [fallbackCascade, h0, Bool.false_eq_true, if_false, hrec]
      refine Prod.ext (by omega) (Prod.ext ?_ ?_)
      · simp [List.take]
      · simp only []
        have : n + 1 + k' = n + (k' + 1) := by omega
        rw [this]

theorem fallbackCascade_exhaust (env : Nat → Except Unit SearchResult)
    (strategy : SearchStrategy) :
    ∀ (fbs : List SearchQuery) (n : Nat) (last : Except Unit SearchResult),
      fbs ≠ [] →
      (∀ j, n ≤ j → j < n + fbs.length → searchSucceeded (env j) = false) →
      fallbackCascade env strategy fbs n last =
        (n + fbs.length, fbs.map (buildSearchInput strategy),
         env (n + fbs.length - 1))
  | [], _, _, hne, _ => absurd rfl hne
  | q :: rest, n, last, _, hfail => by
    have h0 : searchSucceeded (env n) = false :=
      hfail n (le_refl n) (by simp only [List.length_cons]; omega)
    match rest with
    | [] =>
      simp [fallbackCascade, h0]
    | r :: rs =>
      have hrec := fallbackCascade_exhaust env strategy (r :: rs) (n + 1) (env n)
        (List.cons_ne_nil r rs)
        (fun j hj1 hj2 => hfail j (by omega)
          (by simp only [List.length_cons] at hj2 ⊢; omega))
      have e1 : n + 1 + (r :: rs).length = n + (q :: r :: rs).length := by
        simp only [List.length_cons]; omega
      have e2 : n + 1 + (r :: rs).length - 1 = n + (q :: r :: rs).length - 1 := by
        simp only [List.length_cons]; omega
      conv_lhs => rw [fallbackCascade]
      simp only [h0, Bool.false_eq_true, if_false, hrec, e1, e2, List.map_cons]

theorem searchPhase_first_success (env : Nat → Except Unit SearchResult)
    (strategy : SearchStrategy) (k : Nat)
    (hk : k ≤ strategy.fallbackSearches.length)
    (hfail : ∀ j, j < k → searchSucceeded (env j) = false)
    (hsucc : searchSucceeded (env k) = true) :
    searchPhase env strategy =
      (k + 1,
       buildSearchInput strategy strategy.primarySearch ::
         (strategy.fallbackSearches.take k).map (buildSearchInput strategy),
       env k) := by
  match k with
  | 0 => simp [searchPhase, hsucc]
  | k' + 1 =>
    have h0 : searchSucceeded (env 0) = false := hfail 0 (by omega)
    have hrec := fallbackCascade_success env strategy strategy.fallbackSearches
      1 k' (env 0) (by omega)
      (fun j hj1 hj2 => hfail j (by omega))
      (by have e : 1 + k' = k' + 1 := by omega
          rw [e]; exact hsucc)
    simp only [searchPhase, h0, Bool.false_eq_true, if_false, hrec]
    have e : 1 + k' = k' + 1 := by omega
    rw [e]

theorem searchPhase_all_fail (env : Nat → Except Unit SearchResult)
    (strategy : SearchStrategy)
    (hfail : ∀ j, j < 1 + strategy.fallbackSearches.length →
      searchSucceeded (env j) = false) :
    searchPhase env strategy =
      (1 + strategy.fallbackSearches.length,
       buildSearchInput strategy strategy.primarySearch ::
         strategy.fallbackSearches.map (buildSearchInput strategy),
       env strategy.fallbackSearches.length) := by
  have h0 : searchSucceeded (env 0) = false := hfail 0 (by omega)
  cases h : strategy.fallbackSearches with
  | nil => simp [searchPhase, fallbackCascade, h0, h]
  | cons f fs =>
    have hrec := fallbackCascade_exhaust env strategy (f :: fs) 1 (env 0)
      (List.cons_ne_nil f fs)
      (fun j hj1 hj2 => hfail j (by rw [h]; omega))
    have e : 1 + (f :: fs).length - 1 = (f :: fs).length := by omega
    simp only [searchPhase, h0, Bool.false_eq_true, if_false, h, hrec, e]

theorem findAndEnrich_error_iff (env : SearchEnv) (strategy : SearchStrategy)
    (reqs : Requirements) :
    findAndEnrichCandidates env strategy reqs = Except.error () ↔
      (searchPhase env.searchResp strategy).2.2 = Except.error () := by
  cases h : (searchPhase env.searchResp strategy).2.2 with
  | error e => cases e; simp [findAndEnrichCandidates, h]
  | ok r => simp [findAndEnrichCandidates, h, EnrichedCandidates.validate]

theorem skillStep_fst_le (repo : Repository) (acc : ℚ × List String)
    (a : String) : acc.1 ≤ (skillStep repo acc a).1 := by
  unfold skillStep
  split
  · exact le_add_of_nonneg_right (by norm_num)
  · exact le_refl _

theorem keywordStep_fst_le (t : String) (acc : ℚ × List String)
    (a : String) : acc.1 ≤ (keywordStep t acc a).1 := by
  unfold keywordStep
  split
  · exact le_add_of_nonneg_right (by norm_num)
  · exact le_refl _

theorem topicKeywordStep_fst_le (t : String) (acc : ℚ × List String)
    (a : String) : acc.1 ≤ (topicKeywordStep t acc a).1 := by
  unfold topicKeywordStep
  split
  · exact le_add_of_nonneg_right (by norm_num)
  · exact le_refl _

theorem topicStep_fst_le (keywords : List String) (acc : ℚ × List String)
    (a : String) : acc.1 ≤ (topicStep keywords acc a).1 :=
  foldl_fst_le _ (topicKeywordStep_fst_le a) keywords acc

/-- C7: for every input repository, every list of required skills and every
list of keywords, the deterministic relevance score returned by
analyzeRepositoryRelevance lies in the closed interval from 0 to 1. -/
theorem c7_relevance_score_in_unit_interval (repo : Repository)
    (requiredSkills keywords : List String) :
    0 ≤ (analyzeRepositoryRelevance repo requiredSkills keywords).score ∧
    (analyzeRepositoryRelevance repo requiredSkills keywords).score ≤ 1 := by
  simp only [analyzeRepositoryRelevance]
  set F1 := requiredSkills.foldl (skillStep repo) ((0 : ℚ), ([] : List String))
    with hF1
  set F2 := keywords.foldl
    (keywordStep (strToLower (repo.name ++ " " ++ repo.description))) F1 with hF2
  set F3 := repo.topics.foldl (topicStep keywords) F2 with hF3
  have h01 : ((0 : ℚ), ([] : List String)).1 ≤ F1.1 :=
    foldl_fst_le _ (skillStep_fst_le repo) requiredSkills _
  have h12 : F1.1 ≤ F2.1 :=
    foldl_fst_le _ (keywordStep_fst_le _) keywords F1
  have h23 : F2.1 ≤ F3.1 :=
    foldl_fst_le _ (topicStep_fst_le keywords) repo.topics F2
  have h03 : (0 : ℚ) ≤ F3.1 := le_trans (le_trans h01 h12) h23
  have main : ∀ p : ℚ × List String, 0 ≤ p.1 →
      0 ≤ (if 1 < p.1 then (1 : ℚ) else p.1) ∧
        (if 1 < p.1 then (1 : ℚ) else p.1) ≤ 1 := by
    intro p hp
    constructor
    · split
      · norm_num
      · exact hp
    · split
      · exact le_refl 1
      · next h => exact le_of_not_lt h
  by_cases hstars : 50 < repo.stars
  · rw [if_pos hstars]
    exact main _ (add_nonneg h03 (by norm_num))
  · rw [if_neg hstars]
    exact main _ h03

theorem goSortModel_sorts : sortsByScoreDesc goSortModel := fun l =>
  ⟨List.perm_insertionSort scoreDescRel l,
   List.sorted_insertionSort scoreDescRel l⟩

theorem badSortModel_sorts : sortsByScoreDesc badSortModel := fun l =>
  ⟨List.perm_insertionSort tieRankRel l,
   (List.sorted_insertionSort tieRankRel l).imp fun hab =>
     hab.elim le_of_lt fun h => le_of_eq h.1⟩

theorem denseRanks_assignRanks (m : List RankedCandidate) :
    denseRanks (assignRanks m) := by
  intro k h
  have hm : k < m.length := by
    rw [assignRanks_length] at h
    exact h
  have hget : (assignRanks m).get ⟨k, h⟩ = setRank m[k] ((k : Int) + 1) := by
    rw [List.get_eq_getElem]
    exact assignRanks_getElem m k hm h
  rw [hget]
  rfl

theorem mem_rankAndPresentCore (f : List RankedCandidate → List RankedCandidate)
    (hf : sortsByScoreDesc f) (parsed : FinalResult) {c : RankedCandidate}
    (hc : c ∈ (rankAndPresentCore f parsed).topCandidates) :
    ∃ c0 ∈ parsed.topCandidates, ∃ k : Int, c = setRank (recomputeScore c0) k := by
  have hc' : c ∈ assignRanks (f (parsed.topCandidates.map recomputeScore)) := hc
  obtain ⟨c', hmem, k, hck⟩ := mem_assignRanks hc'
  have hmem2 : c' ∈ parsed.topCandidates.map recomputeScore :=
    ((hf (parsed.topCandidates.map recomputeScore)).1.mem_iff).mp hmem
  obtain ⟨c0, hc0, hc0e⟩ := List.mem_map.mp hmem2
  exact ⟨c0, hc0, k, by rw [hck, hc0e]⟩

theorem mem_createFallbackResult (f : List RankedCandidate → List RankedCandidate)
    (hf : sortsByScoreDesc f) (e : EnrichedCandidates) {c : RankedCandidate}
    (hc : c ∈ (createFallbackResult f e).topCandidates) :
    ∃ ec ∈ e.candidates.take 10, ∃ k : Int,
      c = setRank (fallbackRankedCandidate ec) k := by
  have hc' : c ∈ assignRanks (f ((e.candidates.take 10).map fallbackRankedCandidate)) := hc
  obtain ⟨c', hmem, k, hck⟩ := mem_assignRanks hc'
  have hmem2 : c' ∈ (e.candidates.take 10).map fallbackRankedCandidate :=
    ((hf ((e.candidates.take 10).map fallbackRankedCandidate)).1.mem_iff).mp hmem
  obtain ⟨ec, hec, hece⟩ := List.mem_map.mp hmem2
  exact ⟨ec, hec, k, by rw [hck, hece]⟩

theorem createFallbackResult_length (f : List RankedCandidate → List RankedCandidate)
    (hf : sortsByScoreDesc f) (e : EnrichedCandidates) :
    (createFallbackResult f e).topCandidates.length = (e.candidates.take 10).length := by
  have h1 : (createFallbackResult f e).topCandidates =
      assignRanks (f ((e.candidates.take 10).map fallbackRankedCandidate)) := rfl
  rw [h1, assignRanks_length,
    (hf ((e.candidates.take 10).map fallbackRankedCandidate)).1.length_eq,
    List.length_map]

/-- C1 (counterexample): on the degraded ranking path the pipeline returns a
candidate whose FinalMatchScore is 50 (InitialMatchScore scaled by 100) while
the weighted sum of its own zero-valued MatchBreakdown is 0, so the claimed
invariant does not hold on every path producing a FinalResult. -/
theorem c1_counterexample :
    ∃ r, (RunStage2 goSortModel rankFailStage2Env).2 = Except.ok r ∧
      ∃ c ∈ r.topCandidates, c.finalMatchScore ≠ weightedScore c.matchBreakdown := by
  refine ⟨createFallbackResult goSortModel oneUserEnriched, rfl, ?_⟩
  have htop : (createFallbackResult goSortModel oneUserEnriched).topCandidates =
      [setRank (fallbackRankedCandidate
        { username := "success_user", publicRepos := 10, followers := 5,
          gitHubURL := "https://github.com/success_user",
          skillsFound := ["Go"], initialMatchScore := 0.5 }) 1] := rfl
  rw [htop]
  refine ⟨_, List.mem_singleton_self _, ?_⟩
  show (0.5 : ℚ) * 100 ≠ weightedScore {}
  norm_num [weightedScore]

/-- C1 (amended): on the normal ranking path the FinalMatchScore of every
ranked candidate equals the fixed weighted sum of its own MatchBreakdown,
never the model-supplied value; on the fallback path the FinalMatchScore is
instead InitialMatchScore times 100 and the MatchBreakdown stays at its zero
value. -/
theorem c1_final_score_is_weighted_sum
    (f : List RankedCandidate → List RankedCandidate) (hf : sortsByScoreDesc f)
    (parsed : FinalResult) (e : EnrichedCandidates) :
    (∀ c ∈ (rankAndPresentCore f parsed).topCandidates,
        c.finalMatchScore = weightedScore c.matchBreakdown)
  ∧ (∀ c ∈ (createFallbackResult f e).topCandidates,
        c.matchBreakdown = {} ∧
        ∃ ec ∈ e.candidates.take 10,
          c.finalMatchScore = ec.initialMatchScore * 100) := by
  constructor
  · intro c hc
    obtain ⟨c0, _, k, rfl⟩ := mem_rankAndPresentCore f hf parsed hc
    rfl
  · intro c hc
    obtain ⟨ec, hec, k, rfl⟩ := mem_createFallbackResult f hf e hc
    exact ⟨rfl, ec, hec, rfl⟩

theorem c1_final_score_witness :
    sortsByScoreDesc goSortModel ∧
    ∀ c ∈ (rankAndPresentCore goSortModel tieParsed).topCandidates,
      c.finalMatchScore = weightedScore c.matchBreakdown :=
  ⟨goSortModel_sorts,
   (c1_final_score_is_weighted_sum goSortModel goSortModel_sorts tieParsed
      oneUserEnriched).1⟩

/-- C2: when the ranking inference call fails, RunStage2 returns (without
propagating the error) the fallback result built from at most the first 10
enriched candidates, in which the FinalMatchScore of every candidate equals its
InitialMatchScore times 100, every candidate carries the fixed fallback
reasoning string, and the SearchQuality of the summary is the degraded-mode
sentinel. -/
theorem c2_ranking_failure_degrades
    (f : List RankedCandidate → List RankedCandidate) (hf : sortsByScoreDesc f)
    (env : Stage2Env) (reqs : Requirements) (strategy : SearchStrategy)
    (enriched : EnrichedCandidates) (msg : String)
    (h1 : env.analyzeResp = Except.ok reqs)
    (h2 : reqs.unclearRequest = false)
    (h3 : env.strategyResp = Except.ok strategy)
    (h4 : findAndEnrichCandidates env.searchEnv strategy reqs = Except.ok enriched)
    (h5 : env.rankParseResp = Except.error msg) :
    (RunStage2 f env).2 = Except.ok (createFallbackResult f enriched) ∧
    (createFallbackResult f enriched).summary.searchQuality =
      "Fallback (Ranking Unavailable)" ∧
    (createFallbackResult f enriched).topCandidates.length =
      (enriched.candidates.take 10).length ∧
    ∀ c ∈ (createFallbackResult f enriched).topCandidates,
      c.matchReasoning =
        "Ranking step unavailable; score is based on initial keyword match." ∧
      ∃ ec ∈ enriched.candidates.take 10,
        c.username = ec.username ∧
        c.finalMatchScore = ec.initialMatchScore * 100 := by
  refine ⟨?_, rfl, createFallbackResult_length f hf enriched, ?_⟩
  · simp [RunStage2, h1, h2, h3, h4, h5]
  · intro c hc
    obtain ⟨ec, hec, k, rfl⟩ := mem_createFallbackResult f hf enriched hc
    exact ⟨rfl, ec, hec, rfl, rfl⟩

theorem c2_ranking_failure_witness :
    sortsByScoreDesc goSortModel ∧
    (RunStage2 goSortModel rankFailStage2Env).2 =
      Except.ok (createFallbackResult goSortModel oneUserEnriched) :=
  ⟨goSortModel_sorts,
   (c2_ranking_failure_degrades goSortModel goSortModel_sorts rankFailStage2Env
      sampleReqs primaryOnlyStrategy oneUserEnriched "simulated ranking failure"
      rfl rfl rfl rfl rfl).1⟩

/-- C5: whenever requirements extraction returns with the unclear flag set,
RunStage2 halts with the clarification question in its error and its trace
shows no strategy, search or ranking stage ever executed. -/
theorem c5_unclear_halts_pipeline
    (f : List RankedCandidate → List RankedCandidate) (env : Stage2Env)
    (reqs : Requirements) (h1 : env.analyzeResp = Except.ok reqs)
    (h2 : reqs.unclearRequest = true) :
    RunStage2 f env =
      ([StageTag.requirementsStage],
       Except.error ("request unclear: " ++ reqs.clarificationQuestion)) ∧
    StageTag.strategyStage ∉ (RunStage2 f env).1 ∧
    StageTag.searchStage ∉ (RunStage2 f env).1 ∧
    StageTag.rankingStage ∉ (RunStage2 f env).1 := by
  have hmain : RunStage2 f env =
      ([StageTag.requirementsStage],
       Except.error ("request unclear: " ++ reqs.clarificationQuestion)) := by
    simp [RunStage2, h1, h2]
  refine ⟨hmain, ?_, ?_, ?_⟩ <;> rw [hmain] <;> simp

theorem c5_unclear_witness :
    RunStage2 goSortModel unclearStage2Env =
      ([StageTag.requirementsStage],
       Except.error ("request unclear: " ++ unclearReqs.clarificationQuestion)) :=
  (c5_unclear_halts_pipeline goSortModel unclearStage2Env unclearReqs rfl rfl).1

/-- C6: on both ranking paths the produced candidate list carries dense
1-based ranks (position k holds rank k+1) and its FinalMatchScores are
non-increasing down the list. -/
theorem c6_dense_ranks_sorted_scores
    (f : List RankedCandidate → List RankedCandidate) (hf : sortsByScoreDesc f)
    (parsed : FinalResult) (e : EnrichedCandidates) :
    (denseRanks (rankAndPresentCore f parsed).topCandidates ∧
     List.Pairwise scoreDescRel (rankAndPresentCore f parsed).topCandidates)
  ∧ (denseRanks (createFallbackResult f e).topCandidates ∧
     List.Pairwise scoreDescRel (createFallbackResult f e).topCandidates) :=
  ⟨⟨denseRanks_assignRanks _, pairwise_assignRanks (hf _).2⟩,
   ⟨denseRanks_assignRanks _, pairwise_assignRanks (hf _).2⟩⟩

theorem c6_dense_ranks_witness :
    sortsByScoreDesc goSortModel ∧
    denseRanks (rankAndPresentCore goSortModel tieParsed).topCandidates :=
  ⟨goSortModel_sorts,
   (c6_dense_ranks_sorted_scores goSortModel goSortModel_sorts tieParsed
      oneUserEnriched).1.1⟩

/-- C3: the search cascade issues queries strictly in order (primary first,
then the fallbacks in array order) and stops at the first attempt returning
at least one candidate.  If attempt N (0 = primary, N greater than 0 =
1-indexed fallback N) is the first success, the issued inputs are exactly the
primary followed by the first N fallbacks — nothing after — and the stage
returns metadata recording exactly N+1 searches.  With N = 0 the list of
issued inputs is the primary alone, so no fallback is ever executed. -/
theorem c3_cascade_first_success (env : SearchEnv) (strategy : SearchStrategy)
    (reqs : Requirements) (N : Nat) (hN : N ≤ strategy.fallbackSearches.length)
    (hfail : ∀ j, j < N → searchSucceeded (env.searchResp j) = false)
    (hsucc : searchSucceeded (env.searchResp N) = true) :
    searchPhase env.searchResp strategy =
      (N + 1,
       buildSearchInput strategy strategy.primarySearch ::
         (strategy.fallbackSearches.take N).map (buildSearchInput strategy),
       env.searchResp N) ∧
    ∃ enriched, findAndEnrichCandidates env strategy reqs = Except.ok enriched ∧
      enriched.searchMetadata.searchesExecuted = N + 1 := by
  have hsp := searchPhase_first_success env.searchResp strategy N hN hfail hsucc
  refine ⟨hsp, ?_⟩
  cases hr : env.searchResp N with
  | error e =>
    rw [hr] at hsucc
    simp [searchSucceeded] at hsucc
  | ok r =>
    simp only [findAndEnrichCandidates, hsp, hr, EnrichedCandidates.validate]
    exact ⟨_, rfl, rfl⟩

theorem c3_cascade_witness :
    (searchPhase cascadeScenarioEnv.searchResp sampleStrategy).1 = 3 ∧
    ∃ enriched,
      findAndEnrichCandidates cascadeScenarioEnv sampleStrategy sampleReqs =
        Except.ok enriched ∧
      enriched.searchMetadata.searchesExecuted = 3 := by
  have h := c3_cascade_first_success cascadeScenarioEnv sampleStrategy sampleReqs 2
    (by decide) (fun j hj => by interval_cases j <;> decide) (by decide)
  exact ⟨by rw [h.1], h.2⟩

/-- C4 (counterexample): with a primary query returning zero candidates
without error and a single fallback failing hard, the stage returns a fatal
error even though not every attempted query hit a hard backend failure — the
first of the two attempts succeeded with an empty result. -/
theorem c4_counterexample :
    findAndEnrichCandidates emptyThenErrorEnv oneFallbackStrategy sampleReqs =
      Except.error () ∧
    emptyThenErrorEnv.searchResp 0 = Except.ok emptySearchResult ∧
    emptySearchResult.candidates = [] ∧
    (searchPhase emptyThenErrorEnv.searchResp oneFallbackStrategy).1 = 2 :=
  ⟨rfl, rfl, rfl, rfl⟩

/-- C4 (amended): the stage returns a fatal error exactly when no attempted
query returned a candidate and the LAST attempted query hit a hard backend
failure (earlier attempts may have returned zero candidates cleanly); and
when every query in range returns zero candidates without error, the stage
proceeds with an empty candidate set instead of failing. -/
theorem c4_fatal_iff_last_attempt_failed (env : SearchEnv)
    (strategy : SearchStrategy) (reqs : Requirements) :
    (findAndEnrichCandidates env strategy reqs = Except.error () ↔
      ((∀ j, j < (searchPhase env.searchResp strategy).1 →
          searchSucceeded (env.searchResp j) = false) ∧
       env.searchResp ((searchPhase env.searchResp strategy).1 - 1) =
         Except.error ()))
  ∧ ((∀ j, j ≤ strategy.fallbackSearches.length →
        ∃ r, env.searchResp j = Except.ok r ∧ r.candidates = []) →
      ∃ enriched,
        findAndEnrichCandidates env strategy reqs = Except.ok enriched ∧
        enriched.candidates = []) := by
  constructor
  · rw [findAndEnrich_error_iff]
    by_cases hex : ∃ j, j ≤ strategy.fallbackSearches.length ∧
        searchSucceeded (env.searchResp j) = true
    · have hkspec := Nat.find_spec hex
      have hfail : ∀ j, j < Nat.find hex →
          searchSucceeded (env.searchResp j) = false := by
        intro j hj
        have hmin := Nat.find_min hex hj
        have hjle : j ≤ strategy.fallbackSearches.length :=
          le_trans (le_of_lt hj) hkspec.1
        cases hcase : searchSucceeded (env.searchResp j)
        · rfl
        · exact absurd ⟨hjle, hcase⟩ hmin
      have hsp := searchPhase_first_success env.searchResp strategy
        (Nat.find hex) hkspec.1 hfail hkspec.2
      have hlast : (searchPhase env.searchResp strategy).2.2 =
          env.searchResp (Nat.find hex) := by rw [hsp]
      have hcount : (searchPhase env.searchResp strategy).1 = Nat.find hex + 1 := by
        rw [hsp]
      rw [hlast, hcount]
      have hks := hkspec.2
      constructor
      · intro habs
        rw [habs] at hks
        simp [searchSucceeded] at hks
      · rintro ⟨hall, _⟩
        have hcontra := hall (Nat.find hex) (by omega)
        rw [hcontra] at hks
        exact absurd hks (by simp)
    · push_neg at hex
      have hfail : ∀ j, j < 1 + strategy.fallbackSearches.length →
          searchSucceeded (env.searchResp j) = false := by
        intro j hj
        have := hex j (by omega)
        cases hcase : searchSucceeded (env.searchResp j)
        · rfl
        · exact absurd hcase this
      have hsp := searchPhase_all_fail env.searchResp strategy hfail
      have hlast : (searchPhase env.searchResp strategy).2.2 =
          env.searchResp strategy.fallbackSearches.length := by rw [hsp]
      have hcount : (searchPhase env.searchResp strategy).1 =
          1 + strategy.fallbackSearches.length := by rw [hsp]
      have hidx : 1 + strategy.fallbackSearches.length - 1 =
          strategy.fallbackSearches.length := by omega
      rw [hlast, hcount, hidx]
      constructor
      · intro h
        exact ⟨fun j hj => hfail j hj, h⟩
      · rintro ⟨_, h⟩
        exact h
  · intro hresp
    have hfail : ∀ j, j < 1 + strategy.fallbackSearches.length →
        searchSucceeded (env.searchResp j) = false := by
      intro j hj
      obtain ⟨r, hr, hrc⟩ := hresp j (by omega)
      rw [hr]
      simp [searchSucceeded, hrc]
    have hsp := searchPhase_all_fail env.searchResp strategy hfail
    obtain ⟨r0, hr0, hrc0⟩ :=
      hresp strategy.fallbackSearches.length (le_refl _)
    simp only [findAndEnrichCandidates, hsp, hr0, EnrichedCandidates.validate]
    refine ⟨_, rfl, ?_⟩
    rw [hrc0]
    rfl

theorem c4_amended_witness :
    ∃ enriched,
      findAndEnrichCandidates allEmptySearchEnv sampleStrategy sampleReqs =
        Except.ok enriched ∧
      enriched.candidates = [] :=
  (c4_fatal_iff_last_attempt_failed allEmptySearchEnv sampleStrategy sampleReqs).2
    (fun _ _ => ⟨emptySearchResult, rfl, rfl⟩)

/-- C8 (counterexample): the sort is performed with Go sort.Slice, which
guarantees sortedness but not stability.  badSortModel satisfies the
sort.Slice contract, the two tieParsed candidates have equal recomputed
scores, yet the ranked output lists them in the opposite of their input
order, so ties are not guaranteed to keep their original relative order. -/
theorem c8_counterexample :
    sortsByScoreDesc badSortModel ∧
    (tieParsed.topCandidates.map fun c => c.username) = ["alice", "bob"] ∧
    ((tieParsed.topCandidates.map fun c => weightedScore c.matchBreakdown) =
      [50, 50]) ∧
    ((rankAndPresentCore badSortModel tieParsed).topCandidates.map
        fun c => c.username) = ["bob", "alice"] := by
  have hresc : tieParsed.topCandidates.map recomputeScore =
      [aliceRescored, bobRescored] := by
    norm_num [tieParsed, recomputeScore, weightedScore, aliceRescored,
      bobRescored, bd50]
  refine ⟨badSortModel_sorts, rfl, ?_, ?_⟩
  · norm_num [tieParsed, weightedScore, bd50]
  · have hsort : badSortModel [aliceRescored, bobRescored] =
        [bobRescored, aliceRescored] := by decide
    have h2 : (rankAndPresentCore badSortModel tieParsed).topCandidates =
        assignRanks (badSortModel (tieParsed.topCandidates.map recomputeScore)) := rfl
    rw [h2, hresc, hsort]
    rfl

/-- C8 (amended): on both ranking paths the output is a permutation of the
recomputed candidates sorted by descending FinalMatchScore; the relative
order of equal-score candidates is not guaranteed, because sort.Slice makes
no stability promise. -/
theorem c8_sorted_permutation (f : List RankedCandidate → List RankedCandidate)
    (hf : sortsByScoreDesc f) (parsed : FinalResult) (e : EnrichedCandidates) :
    ((rankAndPresentCore f parsed).topCandidates.map fun c => c.username).Perm
        (parsed.topCandidates.map fun c => c.username)
  ∧ ((rankAndPresentCore f parsed).topCandidates.map
        fun c => c.finalMatchScore).Perm
        (parsed.topCandidates.map fun c => weightedScore c.matchBreakdown)
  ∧ List.Pairwise scoreDescRel (rankAndPresentCore f parsed).topCandidates
  ∧ ((createFallbackResult f e).topCandidates.map fun c => c.username).Perm
        ((e.candidates.take 10).map fun ec => ec.username)
  ∧ ((createFallbackResult f e).topCandidates.map
        fun c => c.finalMatchScore).Perm
        ((e.candidates.take 10).map fun ec => ec.initialMatchScore * 100)
  ∧ List.Pairwise scoreDescRel (createFallbackResult f e).topCandidates := by
  have h1 : (rankAndPresentCore f parsed).topCandidates =
      assignRanks (f (parsed.topCandidates.map recomputeScore)) := rfl
  have h2 : (createFallbackResult f e).topCandidates =
      assignRanks (f ((e.candidates.take 10).map fallbackRankedCandidate)) := rfl
  refine ⟨?_, ?_, ?_, ?_, ?_, ?_⟩
  · rw [h1, assignRanks_map (fun c => c.username) (fun _ _ => rfl)]
    have hperm := ((hf (parsed.topCandidates.map recomputeScore)).1).map
      (fun c : RankedCandidate => c.username)
    have heq : ((parsed.topCandidates.map recomputeScore).map
        fun c : RankedCandidate => c.username) =
        parsed.topCandidates.map fun c => c.username := by
      rw [List.map_map]
      rfl
    exact heq ▸ hperm
  · rw [h1, assignRanks_map (fun c => c.finalMatchScore) (fun _ _ => rfl)]
    have hperm := ((hf (parsed.topCandidates.map recomputeScore)).1).map
      (fun c : RankedCandidate => c.finalMatchScore)
    have heq : ((parsed.topCandidates.map recomputeScore).map
        fun c : RankedCandidate => c.finalMatchScore) =
        parsed.topCandidates.map fun c => weightedScore c.matchBreakdown := by
      rw [List.map_map]
      rfl
    exact heq ▸ hperm
  · rw [h1]
    exact pairwise_assignRanks (hf _).2
  · rw [h2, assignRanks_map (fun c => c.username) (fun _ _ => rfl)]
    have hperm := ((hf ((e.candidates.take 10).map fallbackRankedCandidate)).1).map
      (fun c : RankedCandidate => c.username)
    have heq : (((e.candidates.take 10).map fallbackRankedCandidate).map
        fun c : RankedCandidate => c.username) =
        (e.candidates.take 10).map fun ec => ec.username := by
      rw [List.map_map]
      rfl
    exact heq ▸ hperm
  · rw [h2, assignRanks_map (fun c => c.finalMatchScore) (fun _ _ => rfl)]
    have hperm := ((hf ((e.candidates.take 10).map fallbackRankedCandidate)).1).map
      (fun c : RankedCandidate => c.finalMatchScore)
    have heq : (((e.candidates.take 10).map fallbackRankedCandidate).map
        fun c : RankedCandidate => c.finalMatchScore) =
        (e.candidates.take 10).map fun ec => ec.initialMatchScore * 100 := by
      rw [List.map_map]
      rfl
    exact heq ▸ hperm
  · rw [h2]
    exact pairwise_assignRanks (hf _).2

theorem c8_sorted_permutation_witness :
    sortsByScoreDesc goSortModel ∧
    ((rankAndPresentCore goSortModel tieParsed).topCandidates.map
        fun c => c.username).Perm
      (tieParsed.topCandidates.map fun c => c.username) :=
  ⟨goSortModel_sorts,
   (c8_sorted_permutation goSortModel goSortModel_sorts tieParsed
      oneUserEnriched).1⟩

/-- C9 (counterexample): with an empty ranked list the summary is returned
untouched, so the AverageMatchScore is exactly the value the model claimed
(42) rather than a recomputed mean. -/
theorem c9_counterexample :
    (rankAndPresentCore goSortModel emptyParsed).summary.averageMatchScore = 42 ∧
    emptyParsed.summary.averageMatchScore = 42 ∧
    emptyParsed.topCandidates = [] ∧ (42 : ℚ) ≠ 0 :=
  ⟨rfl, rfl, rfl, by norm_num⟩

/-- C9 (amended): whenever the ranked candidate list is non-empty the
returned AverageMatchScore is recomputed as the mean of the recomputed
FinalMatchScores, overwriting the model-claimed value; when the list is
empty the parsed summary (including its claimed average) is passed through
unchanged. -/
theorem c9_amended_average_recomputed
    (f : List RankedCandidate → List RankedCandidate) (hf : sortsByScoreDesc f)
    (parsed : FinalResult) :
    (parsed.topCandidates ≠ [] →
      (rankAndPresentCore f parsed).summary.averageMatchScore =
        (parsed.topCandidates.map fun c => weightedScore c.matchBreakdown).sum /
          (parsed.topCandidates.length : ℚ))
  ∧ (parsed.topCandidates = [] →
      (rankAndPresentCore f parsed).summary = parsed.summary) := by
  have hlen : (assignRanks (f (parsed.topCandidates.map recomputeScore))).length =
      parsed.topCandidates.length := by
    rw [assignRanks_length, (hf _).1.length_eq, List.length_map]
  have hsummary : (rankAndPresentCore f parsed).summary =
      if 0 < (assignRanks (f (parsed.topCandidates.map recomputeScore))).length then
        { parsed.summary with averageMatchScore :=
            ((parsed.topCandidates.map recomputeScore).map
              fun c => c.finalMatchScore).sum /
              ((assignRanks (f (parsed.topCandidates.map recomputeScore))).length : ℚ) }
      else parsed.summary := rfl
  constructor
  · intro hne
    have hpos : 0 < (assignRanks (f (parsed.topCandidates.map recomputeScore))).length := by
      rw [hlen]
      exact List.length_pos.mpr hne
    have hsum : ((parsed.topCandidates.map recomputeScore).map
        fun c => c.finalMatchScore) =
        parsed.topCandidates.map fun c => weightedScore c.matchBreakdown := by
      rw [List.map_map]
      rfl
    rw [hsummary, if_pos hpos, hsum, hlen]
  · intro hnil
    have h0 : parsed.topCandidates.map recomputeScore = [] := by
      rw [hnil]
      rfl
    have hfnil : f (parsed.topCandidates.map recomputeScore) = [] := by
      rw [h0]
      exact (hf []).1.eq_nil
    have hlen0 : (assignRanks (f (parsed.topCandidates.map recomputeScore))).length = 0 := by
      rw [hfnil]
      rfl
    rw [hsummary, if_neg (by rw [hlen0]; exact lt_irrefl 0)]

theorem c9_amended_witness :
    sortsByScoreDesc goSortModel ∧ tieParsed.topCandidates ≠ [] ∧
    (rankAndPresentCore goSortModel tieParsed).summary.averageMatchScore =
      (tieParsed.topCandidates.map fun c => weightedScore c.matchBreakdown).sum /
        (tieParsed.topCandidates.length : ℚ) :=
  ⟨goSortModel_sorts, by decide,
   (c9_amended_average_recomputed goSortModel goSortModel_sorts tieParsed).1
     (by decide)⟩

theorem mem_enrichFold (env : SearchEnv) (strategy : SearchStrategy)
    (reqs : Requirements) :
    ∀ (cands : List Candidate) (acc : List EnrichedCandidate × Nat)
      (c : EnrichedCandidate),
      c ∈ (cands.foldl (enrichStep env strategy reqs) acc).1 →
      c ∈ acc.1 ∨ ∃ cand repos,
        env.repoResp cand.username = Except.ok repos ∧
        c = enrichCandidate strategy reqs cand repos
  | [], _, _, h => Or.inl h
  | x :: xs, acc, c, h => by
    have hrec := mem_enrichFold env strategy reqs xs
      (enrichStep env strategy reqs acc x) c h
    rcases hrec with hin | hex
    · unfold enrichStep at hin
      split at hin
      · exact Or.inl hin
      · next repos heq =>
        rcases List.mem_append.mp hin with h1 | h2
        · exact Or.inl h1
        · exact Or.inr ⟨x, repos, heq, by simpa using h2⟩
    · exact Or.inr hex

theorem enrichCandidate_score_cases (strategy : SearchStrategy)
    (reqs : Requirements) (cand : Candidate) (repos : List Repository) :
    ((enrichCandidate strategy reqs cand repos).initialMatchScore = 1/2 ∨
      (enrichCandidate strategy reqs cand repos).initialMatchScore = 7/10) ∧
    ((enrichCandidate strategy reqs cand repos).initialMatchScore = 7/10 ↔
      (enrichCandidate strategy reqs cand repos).relevantRepositories ≠ []) := by
  have hscore : (enrichCandidate strategy reqs cand repos).initialMatchScore =
      if 0 < (enrichCandidate strategy reqs cand repos).relevantRepositories.length
      then (0.5 : ℚ) + 0.2 else 0.5 := rfl
  by_cases hpos :
      0 < (enrichCandidate strategy reqs cand repos).relevantRepositories.length
  · rw [hscore, if_pos hpos]
    constructor
    · right
      norm_num
    · constructor
      · intro _
        exact List.length_pos.mp hpos
      · intro _
        norm_num
  · rw [hscore, if_neg hpos]
    constructor
    · left
      norm_num
    · constructor
      · intro habs
        exact absurd habs (by norm_num)
      · intro hne
        exact absurd (List.length_pos.mpr hne) hpos

/-- C10: every candidate built by the enrichment loop has InitialMatchScore
exactly 1/2 or 7/10 — 7/10 exactly when it has at least one relevant
repository — and consequently every FinalMatchScore on the fallback ranking
path is exactly 50 or 70. -/
theorem c10_initial_score_dichotomy (env : SearchEnv) (strategy : SearchStrategy)
    (reqs : Requirements) (enriched : EnrichedCandidates)
    (h : findAndEnrichCandidates env strategy reqs = Except.ok enriched)
    (f : List RankedCandidate → List RankedCandidate) (hf : sortsByScoreDesc f) :
    (∀ c ∈ enriched.candidates,
        (c.initialMatchScore = 1/2 ∨ c.initialMatchScore = 7/10) ∧
        (c.initialMatchScore = 7/10 ↔ c.relevantRepositories ≠ []))
  ∧ ∀ rc ∈ (createFallbackResult f enriched).topCandidates,
      rc.finalMatchScore = 50 ∨ rc.finalMatchScore = 70 := by
  have hmem : ∀ c ∈ enriched.candidates, ∃ cand repos,
      env.repoResp cand.username = Except.ok repos ∧
      c = enrichCandidate strategy reqs cand repos := by
    intro c hc
    simp only [findAndEnrichCandidates] at h
    cases hsp : (searchPhase env.searchResp strategy).2.2 with
    | error e =>
      rw [hsp] at h
      simp at h
    | ok r =>
      rw [hsp] at h
      simp only [EnrichedCandidates.validate] at h
      rw [Except.ok.injEq] at h
      rw [← h] at hc
      have := mem_enrichFold env strategy reqs r.candidates ([], 0) c hc
      rcases this with h0 | hex
      · simp at h0
      · exact hex
  have hdich : ∀ c ∈ enriched.candidates,
      (c.initialMatchScore = 1/2 ∨ c.initialMatchScore = 7/10) ∧
      (c.initialMatchScore = 7/10 ↔ c.relevantRepositories ≠ []) := by
    intro c hc
    obtain ⟨cand, repos, _, rfl⟩ := hmem c hc
    exact enrichCandidate_score_cases strategy reqs cand repos
  refine ⟨hdich, ?_⟩
  intro rc hrc
  obtain ⟨ec, hec, k, rfl⟩ := mem_createFallbackResult f hf enriched hrc
  have hecmem : ec ∈ enriched.candidates := List.take_subset 10 _ hec
  rcases (hdich ec hecmem).1 with h12 | h710
  · left
    show ec.initialMatchScore * 100 = 50
    rw [h12]
    norm_num
  · right
    show ec.initialMatchScore * 100 = 70
    rw [h710]
    norm_num

theorem c10_initial_score_witness :
    findAndEnrichCandidates oneUserSearchEnv primaryOnlyStrategy sampleReqs =
      Except.ok oneUserEnriched ∧
    sortsByScoreDesc goSortModel ∧
    ∀ rc ∈ (createFallbackResult goSortModel oneUserEnriched).topCandidates,
      rc.finalMatchScore = 50 ∨ rc.finalMatchScore = 70 :=
  ⟨rfl, goSortModel_sorts,
   (c10_initial_score_dichotomy oneUserSearchEnv primaryOnlyStrategy sampleReqs
      oneUserEnriched rfl goSortModel goSortModel_sorts).2⟩

end SourcingAgent
